import Mathlib

/-!
Shallow embedding of the task-manager core (task/stage status propagation,
overdue sweep, archival job, notification queue and delivery worker),
translated from the Python source under `app/`.

Conventions:
* Calendar dates are modelled as `Int` (a day index); `date.today()` becomes an
  explicit `today : Int` parameter, and `timedelta(days = k)` becomes `+ k`.
* SQLAlchemy rows become Lean structures; nullable columns become `Option`.
* A session `SELECT ... FILTER` becomes `List.filter`; a per-row `UPDATE`
  inside a loop becomes `List.map` with the row condition; `first()` becomes
  `List.find?`.
* A raised exception that aborts an operation becomes an `Except` error value;
  a `try/except + rollback` around a whole job becomes a function that returns
  the database unchanged on the injected failure.
* Float-valued hour columns become `Rat` (the claims only test presence or
  copy them, never do float arithmetic).
-/

namespace TaskManager

/-- Row of the `states` table (`app/models/tasks.py`, class `State`). -/
structure State where
  state_id : Nat
  state_name : String
  deriving Repr, DecidableEq

/-- Row of the `tasks` table (`app/models/tasks.py`, class `Task`). -/
structure Task where
  task_id : Nat
  name : String
  description : Option String
  status_state_id : Nat
  due_date : Int
  completed_date : Option Int
  priority : String
  assigned_user_id : Option Nat
  created_by_id : Option Nat
  idempotency_key : Option String
  created_at : Option Int
  updated_at : Option Int
  is_deleted : Bool
  deriving Repr, DecidableEq

/-- Row of the `task_stages` table (`app/models/tasks.py`, class `TaskStage`). -/
structure TaskStage where
  stage_id : Nat
  task_id : Nat
  stage_name : String
  estimated_time_hours : Rat
  actual_time_hours : Option Rat
  status_state_id : Nat
  order_number : Nat
  start_date : Option Int
  completed_date : Option Int
  created_at : Option Int
  updated_at : Option Int
  deriving Repr, DecidableEq

/-- Row of the `users` table (`app/models/user.py`); `email` is non-nullable. -/
structure User where
  user_id : Nat
  username : String
  email : String
  full_name : Option String
  deriving Repr, DecidableEq

/-- Row of the `email_logs` table (`app/models/email.py`, class `EmailLog`). -/
structure EmailLog where
  id : Nat
  to_email : Option String
  subject : String
  body : String
  status : String
  sent_at : Option Int
  error_message : Option String
  deriving Repr, DecidableEq

/-- Row of `archived_tasks` (`app/models/tasks.py`, class `ArchivedTask`). -/
structure ArchivedTask where
  task_id : Nat
  name : String
  description : Option String
  status_state_id : Nat
  due_date : Int
  completed_date : Option Int
  priority : String
  assigned_user_id : Option Nat
  created_by_id : Option Nat
  idempotency_key : Option String
  created_at : Option Int
  updated_at : Option Int
  deriving Repr, DecidableEq

/-- Row of `archived_task_stages` (class `ArchivedTaskStage`). -/
structure ArchivedTaskStage where
  stage_id : Nat
  task_id : Nat
  stage_name : String
  estimated_time_hours : Rat
  actual_time_hours : Option Rat
  status_state_id : Nat
  order_number : Nat
  start_date : Option Int
  completed_date : Option Int
  created_at : Option Int
  updated_at : Option Int
  deriving Repr, DecidableEq

/-- `get_all_states` (`app/services/tasks.py` lines 21-24): builds the dict
`{s.state_name: s.state_id}`.  A Python dict comprehension keeps the LAST
entry for a repeated name, hence the lookup over the reversed list. -/
def get_all_states (states : List State) : String → Option Nat :=
  fun n => (states.reverse.find? (fun s => s.state_name == n)).map State.state_id

/-- `max((s.completed_date for s in stages if s.completed_date), default=today)`:
maximum of a list of dates with an explicit default for the empty list. -/
def maxDateD (l : List Int) (d : Int) : Int :=
  match l with
  | [] => d
  | x :: xs => xs.foldl max x

/-- The populated `completed_date`s of a stage list (the generator
`s.completed_date for s in stages if s.completed_date`). -/
def stageCompletedDates (stages : List TaskStage) : List Int :=
  stages.filterMap TaskStage.completed_date

/-- `update_task_status_from_stages` (`app/services/tasks.py` lines 133-155),
core recomputation applied to one task given the stages owned by it.
Returns `none` when the Python code would assign a missing (`None`) state id
into the non-nullable `status_state_id` column, which can only crash at
commit time; all claims assume the canonical states are seeded. -/
def update_task_status_from_stages (states : List State) (today : Int)
    (task : Task) (stages : List TaskStage) : Option Task :=
  let sm := get_all_states states
  let comp_id := sm "completed"
  let overdue_id := sm "overdue"
  let in_prog_id := sm "in-progress"
  let all_completed := stages.all (fun s => some s.status_state_id == comp_id)
  if all_completed ∧ stages ≠ [] then
    match comp_id with
    | some c =>
        some { task with
                 status_state_id := c,
                 completed_date := some (maxDateD (stageCompletedDates stages) today) }
    | none => none
  else if task.due_date < today ∧ some task.status_state_id ≠ comp_id then
    match overdue_id with
    | some o => some { task with status_state_id := o }
    | none => none
  else if stages.any (fun s => some s.status_state_id == in_prog_id) then
    match in_prog_id with
    | some p => some { task with status_state_id := p }
    | none => none
  else
    some task

/-- Database-level `update_task_status_from_stages`: load the task by id
(`if not task: return` keeps the task list unchanged), gather its stages,
recompute, and write the recomputed row back. -/
def update_task_status_from_stages_db (states : List State) (today : Int)
    (tasks : List Task) (stages : List TaskStage) (task_id : Nat) :
    Option (List Task) :=
  match tasks.find? (fun t => t.task_id == task_id) with
  | none => some tasks
  | some task =>
    match update_task_status_from_stages states today task
        (stages.filter (fun s => s.task_id == task_id)) with
    | none => none
    | some nt => some (tasks.map (fun t => if t.task_id == task_id then nt else t))

/-- Payload of `TaskStageUpdate` (`app/schemas/task.py`): `status_state_id`
is required, the remaining fields are optional. -/
structure TaskStageUpdate where
  status_state_id : Nat
  actual_time_hours : Option Rat
  start_date : Option Int
  completed_date : Option Int
  deriving Repr, DecidableEq

/-- The error outcomes of `update_stage`: the two `HTTPException`s of
`app/services/tasks.py` lines 103 and 108, the 400-validation error of
line 117, and the commit-time crash that assigning a missing state id would
cause inside the propagation step. -/
inductive UpdateError where
  | stageNotFound
  | invalidStatusId
  | actualHoursRequired
  | missingStateOnWrite
  deriving Repr, DecidableEq

/-- The `in-progress` branch of `update_stage` (`app/services/tasks.py`
lines 113-114): set start_date to today when first entering in-progress;
an existing start_date is not reset. -/
def stage_after_start (new_status : State) (today : Int) (st : TaskStage) : TaskStage :=
  if new_status.state_name = "in-progress" ∧ st.start_date = none
  then { st with start_date := some today } else st

/-- The `completed` date write of `update_stage`
(`update_data.completed_date or today`, line 118) followed by the three
unconditional last-write-wins overwrites (lines 120-125). -/
def stage_after_writes (new_status : State) (today : Int) (upd : TaskStageUpdate)
    (st : TaskStage) : TaskStage :=
  let st3 :=
    if new_status.state_name = "completed"
    then { st with completed_date := some (upd.completed_date.getD today) }
    else st
  let st4 :=
    match upd.actual_time_hours with
    | some a => { st3 with actual_time_hours := some a }
    | none => st3
  let st5 :=
    match upd.start_date with
    | some d => { st4 with start_date := some d }
    | none => st4
  match upd.completed_date with
  | some d => { st5 with completed_date := some d }
  | none => st5

/-- `update_stage` (`app/services/tasks.py` lines 99-130): resolve the stage
and the target state, write the new status, apply the transition rules in
source order (start-date derivation, completion validation, completed-date
derivation, unconditional overwrites), write the stage back and run the
task-status propagation.  Returns the updated task table, the updated stage
table and the updated stage row. -/
def update_stage (states : List State) (tasks : List Task)
    (stages : List TaskStage) (today : Int) (stage_id : Nat)
    (upd : TaskStageUpdate) :
    Except UpdateError (List Task × List TaskStage × TaskStage) :=
  match stages.find? (fun s => s.stage_id == stage_id) with
  | none => .error .stageNotFound
  | some stage0 =>
    match states.find? (fun s => s.state_id == upd.status_state_id) with
    | none => .error .invalidStatusId
    | some new_status =>
      let stage1 := { stage0 with status_state_id := upd.status_state_id }
      let stage2 := stage_after_start new_status today stage1
      if new_status.state_name = "completed" ∧ upd.actual_time_hours = none
          ∧ stage2.actual_time_hours = none then
        .error .actualHoursRequired
      else
        let stage6 := stage_after_writes new_status today upd stage2
        let stages' := stages.map (fun s => if s.stage_id == stage_id then stage6 else s)
        match update_task_status_from_stages_db states today tasks stages' stage6.task_id with
        | none => .error .missingStateOnWrite
        | some tasks' => .ok (tasks', stages', stage6)

/-- Error outcome of `delete_stage` (`app/routers/tasks.py` line 106). -/
inductive DeleteError where
  | stageNotFound
  deriving Repr, DecidableEq

/-- Comparison used by `ORDER BY order_number` in the re-ordering query. -/
def byOrderNumber (a b : TaskStage) : Prop :=
  a.order_number ≤ b.order_number

instance : DecidableRel byOrderNumber :=
  fun a b => inferInstanceAs (Decidable (a.order_number ≤ b.order_number))

instance : IsTotal TaskStage byOrderNumber :=
  ⟨fun a b => Nat.le_total a.order_number b.order_number⟩

instance : IsTrans TaskStage byOrderNumber :=
  ⟨fun _ _ _ h h' => Nat.le_trans h h'⟩

/-- `for i, s in enumerate(remaining_stages, start=1): s.order_number = i`
(`app/routers/tasks.py` lines 119-120): assign consecutive order numbers
starting at `n` down the list. -/
def renumberFrom (n : Nat) : List TaskStage → List TaskStage
  | [] => []
  | s :: rest => { s with order_number := n } :: renumberFrom (n + 1) rest

/-- `delete_stage` (`app/routers/tasks.py` lines 101-123): delete the row by
primary key, select the task's remaining stages ordered by `order_number`,
and renumber them `1..N` (`enumerate(remaining_stages, start=1)`).  The
returned list is the stage table after both commits; rows of other tasks are
untouched. -/
def delete_stage (stages : List TaskStage) (stage_id : Nat) :
    Except DeleteError (List TaskStage) :=
  match stages.find? (fun s => s.stage_id == stage_id) with
  | none => .error .stageNotFound
  | some stage =>
    let tid := stage.task_id
    let stages1 := stages.filter (fun s => s.stage_id != stage_id)
    let remaining :=
      (stages1.filter (fun s => s.task_id == tid)).insertionSort byOrderNumber
    let renumbered := renumberFrom 1 remaining
    .ok (stages1.filter (fun s => s.task_id != tid) ++ renumbered)

/-! ### Notification queue and delivery worker
(`app/services/email_worker.py`, `app/utils/email.py`) -/

/-- Mail-transport configuration (`app/config.py` settings used by
`send_email_async`); only the presence of `EMAIL_HOST` matters to control
flow. -/
structure EmailSettings where
  email_host : Option String
  email_to : Option String
  deriving Repr, DecidableEq

/-- What the external SMTP transport does for one delivery attempt: either
`aiosmtplib.send` returns, or it raises an exception with a message. -/
inductive TransportBehavior where
  | delivers
  | raises (msg : String)
  deriving Repr, DecidableEq

/-- `send_email_async` (`app/utils/email.py` lines 6-39).  The whole body is
wrapped in `try/except Exception` whose handler only prints, so the function
returns normally on every path: with no `EMAIL_HOST` it returns early, and a
transport exception is caught and swallowed.  It never propagates an
error to its caller. -/
def send_email_async (cfg : EmailSettings) (transport : TransportBehavior) :
    Except String Unit :=
  match cfg.email_host with
  | none => .ok ()
  | some _ =>
    match transport with
    | .delivers => .ok ()
    | .raises _ => .ok ()

/-- One job on the in-process `email_queue` (class `EmailJob`). -/
structure EmailJob where
  log_id : Nat
  subject : String
  body : String
  to_email : Option String
  deriving Repr, DecidableEq

/-- One iteration of the `email_worker` loop
(`app/services/email_worker.py` lines 26-59) on a dequeued job: attempt
delivery; on a normal return mark the `EmailLog` row `sent` with a
timestamp, on a raised exception mark it `failed` with the error text.
The row is addressed by its primary key `id`. -/
def email_worker_step (cfg : EmailSettings) (transport : TransportBehavior)
    (now : Int) (logs : List EmailLog) (job : EmailJob) : List EmailLog :=
  match send_email_async cfg transport with
  | .ok _ =>
      logs.map (fun l =>
        if l.id == job.log_id then { l with status := "sent", sent_at := some now } else l)
  | .error e =>
      logs.map (fun l =>
        if l.id == job.log_id then { l with status := "failed", error_message := some e } else l)

/-- The `email_worker` loop consuming a queue of jobs in FIFO order, each
paired with the transport's behavior for that attempt.  The loop body
catches every exception per job (`try/except/finally`), so the loop always
proceeds to the next job: processing the whole list models that the worker
stays alive across failing jobs. -/
def email_worker_run (cfg : EmailSettings) (now : Int)
    (jobs : List (EmailJob × TransportBehavior)) (logs : List EmailLog) :
    List EmailLog :=
  jobs.foldl (fun acc jb => email_worker_step cfg jb.2 now acc jb.1) logs

/-- `enqueue_email` (`app/services/email_worker.py` lines 61-80): persist a
`pending` `EmailLog` row with a fresh id, then push the job on the queue.
Returns the new log table, the queue with the job appended, and the id. -/
def enqueue_email (subject body : String) (to_email : Option String)
    (next_id : Nat) (logs : List EmailLog) (queue : List EmailJob) :
    List EmailLog × List EmailJob × Nat :=
  let new_log : EmailLog :=
    { id := next_id, to_email := to_email, subject := subject, body := body,
      status := "pending", sent_at := none, error_message := none }
  (logs ++ [new_log],
   queue ++ [{ log_id := next_id, subject := subject, body := body, to_email := to_email }],
   next_id)

/-! ### Overdue sweep (`app/services/scheduler.py`, `check_overdue_and_notify`) -/

/-- Database visible to the scheduler jobs. -/
structure SweepDB where
  states : List State
  tasks : List Task
  stages : List TaskStage
  users : List User
  deriving Repr, DecidableEq

/-- A rendered notification as handed to `enqueue_email`. -/
structure EmailMsg where
  subject : String
  body : String
  to_email : Option String
  deriving Repr, DecidableEq

/-- `task.assigned_user`: resolve the relationship through
`assigned_user_id`. -/
def findUser (users : List User) (uid : Option Nat) : Option User :=
  match uid with
  | none => none
  | some i => users.find? (fun u => u.user_id == i)

/-- `full_name` rendered into an f-string: Python prints `None` for a null
name. -/
def renderName (u : User) : String :=
  match u.full_name with
  | some n => n
  | none => "None"

/-- The overdue notification composed for a task (scheduler lines 55-69);
`none` when the task has no resolvable assignee. -/
def overdueTaskEmail (users : List User) (t : Task) : Option EmailMsg :=
  match findUser users t.assigned_user_id with
  | none => none
  | some u =>
    some { subject := "Task Overdue: " ++ t.name,
           body := "Hello " ++ renderName u ++ ",\n\n"
             ++ "The following task is now OVERDUE:\n"
             ++ "Task ID: " ++ toString t.task_id ++ "\n"
             ++ "Name: " ++ t.name ++ "\n"
             ++ "Due Date: " ++ toString t.due_date ++ "\n"
             ++ "Priority: " ++ t.priority ++ "\n\n"
             ++ "Please update the status or contact your manager.",
           to_email := some u.email }

/-- The stage-overdue notification (scheduler lines 91-104); the owning task
is read through the `stage.task` relationship. -/
def overdueStageEmail (users : List User) (tasks : List Task)
    (s : TaskStage) : Option EmailMsg :=
  match tasks.find? (fun t => t.task_id == s.task_id) with
  | none => none
  | some task =>
    match findUser users task.assigned_user_id with
    | none => none
    | some u =>
      some { subject := "Stage Overdue in Task " ++ toString s.task_id,
             body := "Hello " ++ renderName u ++ ",\n\n"
               ++ "A stage in your task is overdue:\n"
               ++ "Stage: " ++ s.stage_name ++ "\n"
               ++ "Task: " ++ task.name ++ " (ID: " ++ toString task.task_id ++ ")\n\n"
               ++ "Please attend to this immediately.",
             to_email := some u.email }

/-- The near-due reminder (scheduler lines 126-140). -/
def reminderEmail (users : List User) (t : Task) : Option EmailMsg :=
  match findUser users t.assigned_user_id with
  | none => none
  | some u =>
    some { subject := "Reminder: Task Due Soon - " ++ t.name,
           body := "Hello " ++ renderName u ++ ",\n\n"
             ++ "This is a reminder that your task is due soon:\n"
             ++ "Task ID: " ++ toString t.task_id ++ "\n"
             ++ "Name: " ++ t.name ++ "\n"
             ++ "Due Date: " ++ toString t.due_date ++ "\n\n"
             ++ "Please ensure it is completed on time.",
           to_email := some u.email }

/-- The per-row effect of the task phase (scheduler lines 38-53): the SELECT
filter is `status_state_id != comp_id AND due_date < today`, and inside the
loop the status is written only when not already `overdue`. -/
def sweepTaskUpdate (comp_id overdue_id : Nat) (today : Int) (t : Task) : Task :=
  if t.status_state_id ≠ comp_id ∧ t.due_date < today then
    (if t.status_state_id ≠ overdue_id then { t with status_state_id := overdue_id } else t)
  else t

/-- The join condition `TaskModel.due_date < today` read through the stage's
owning task; a stage whose task row does not exist is not produced by the
inner join. -/
def taskDueBefore (tasks : List Task) (tid : Nat) (today : Int) : Bool :=
  match tasks.find? (fun t => t.task_id == tid) with
  | some t => decide (t.due_date < today)
  | none => false

/-- The stage-phase SELECT filter (scheduler lines 73-85):
`status_state_id != comp_id AND completed_date IS NULL AND
start_date IS NOT NULL AND task.due_date < today`. -/
def sweepStageCond (comp_id : Nat) (today : Int) (tasks : List Task)
    (s : TaskStage) : Bool :=
  (s.status_state_id != comp_id) && (s.completed_date == none)
    && (s.start_date != none) && taskDueBefore tasks s.task_id today

/-- The per-row effect of the stage phase (scheduler lines 88-89). -/
def sweepStageUpdate (comp_id overdue_id : Nat) (today : Int)
    (tasks : List Task) (s : TaskStage) : TaskStage :=
  if sweepStageCond comp_id today tasks s then { s with status_state_id := overdue_id } else s

/-- `check_overdue_and_notify` (`app/services/scheduler.py` lines 17-151).
The whole job runs in one session under one `try/except` with a single
`db.commit()` (line 106) covering both the task and the stage status
updates; the collected notification coroutines are gathered only after that
commit, and the reminder query runs last against the committed state.
`stagePhaseRaises` injects an exception during the stage-overdue phase
(i.e. before the commit): the handler rolls the session back, so the
database is returned unchanged and no notification is enqueued.
Returns the database after the run and the list of enqueued notifications. -/
def check_overdue_and_notify (db : SweepDB) (today : Int)
    (stagePhaseRaises : Bool) : SweepDB × List EmailMsg :=
  let sm := get_all_states db.states
  match sm "completed", sm "overdue" with
  | some comp_id, some overdue_id =>
    let tomorrow := today + 1
    let reminder_threshold := today + 2
    let overdueTasks :=
      db.tasks.filter (fun t => t.status_state_id ≠ comp_id ∧ t.due_date < today)
    let tasks1 := db.tasks.map (sweepTaskUpdate comp_id overdue_id today)
    let taskEmails := overdueTasks.filterMap (overdueTaskEmail db.users)
    if stagePhaseRaises then
      (db, [])
    else
      let overdueStages := db.stages.filter (sweepStageCond comp_id today tasks1)
      let stages1 := db.stages.map (sweepStageUpdate comp_id overdue_id today tasks1)
      let stageEmails := overdueStages.filterMap (overdueStageEmail db.users tasks1)
      let db1 : SweepDB := { db with tasks := tasks1, stages := stages1 }
      let nearDue := tasks1.filter (fun t =>
        t.status_state_id ≠ comp_id ∧ tomorrow ≤ t.due_date ∧ t.due_date ≤ reminder_threshold)
      let reminderEmails := nearDue.filterMap (reminderEmail db.users)
      (db1, taskEmails ++ stageEmails ++ reminderEmails)
  | _, _ => (db, [])

/-! ### Archival job (`app/services/scheduler.py`, `archive_old_tasks`) -/

/-- Database visible to the archival job. -/
structure ArchDB where
  states : List State
  tasks : List Task
  stages : List TaskStage
  archived_tasks : List ArchivedTask
  archived_stages : List ArchivedTaskStage
  deriving Repr, DecidableEq

/-- The `ArchivedTask(...)` constructor call (scheduler lines 183-196):
field-for-field copy of the live task. -/
def toArchivedTask (t : Task) : ArchivedTask :=
  { task_id := t.task_id, name := t.name, description := t.description,
    status_state_id := t.status_state_id, due_date := t.due_date,
    completed_date := t.completed_date, priority := t.priority,
    assigned_user_id := t.assigned_user_id, created_by_id := t.created_by_id,
    idempotency_key := t.idempotency_key, created_at := t.created_at,
    updated_at := t.updated_at }

/-- The `ArchivedTaskStage(...)` constructor call (scheduler lines 201-213). -/
def toArchivedStage (s : TaskStage) : ArchivedTaskStage :=
  { stage_id := s.stage_id, task_id := s.task_id, stage_name := s.stage_name,
    estimated_time_hours := s.estimated_time_hours,
    actual_time_hours := s.actual_time_hours,
    status_state_id := s.status_state_id, order_number := s.order_number,
    start_date := s.start_date, completed_date := s.completed_date,
    created_at := s.created_at, updated_at := s.updated_at }

/-- The archival SELECT filter (scheduler lines 167-174): `completed` status
and `completed_date <= today - 30`; a NULL `completed_date` never satisfies
the SQL comparison. -/
def eligibleForArchive (comp_id : Nat) (today : Int) (t : Task) : Bool :=
  t.status_state_id == comp_id &&
    (match t.completed_date with
     | some d => decide (d ≤ today - 30)
     | none => false)

/-- The tasks an archival run selects (`tasks_to_archive`). -/
def archiveSelection (db : ArchDB) (today : Int) : List Task :=
  match db.states.find? (fun s => s.state_name == "completed") with
  | none => []
  | some cs => db.tasks.filter (eligibleForArchive cs.state_id today)

/-- The `for task in tasks_to_archive` loop (scheduler lines 181-218) with a
failure oracle: processing task `t` raises when `failsOn t.task_id`.  Every
`db.add`/`db.delete` only stages pending work in the session, so an
exception anywhere in the loop means the later commit is never reached and
the accumulated work is discarded (`none`).  On success it returns the
archive rows to add and the ids of the tasks to delete, in loop order. -/
def archiveLoop (stages : List TaskStage) (failsOn : Nat → Bool) :
    List Task → Option (List ArchivedTask × List ArchivedTaskStage × List Nat)
  | [] => some ([], [], [])
  | t :: rest =>
    if failsOn t.task_id then none
    else
      match archiveLoop stages failsOn rest with
      | none => none
      | some (ats, ass, dels) =>
        some (toArchivedTask t :: ats,
              (stages.filter (fun s => s.task_id == t.task_id)).map toArchivedStage ++ ass,
              t.task_id :: dels)

/-- `archive_old_tasks` (`app/services/scheduler.py` lines 153-225).  One
session, one `try/except` with `rollback`, and a single `db.commit()` (line
220) after the whole loop: an exception while archiving any selected task
leaves the database unchanged.  Deleting a task cascades to its stages. -/
def archive_old_tasks (db : ArchDB) (failsOn : Nat → Bool) (today : Int) : ArchDB :=
  match db.states.find? (fun s => s.state_name == "completed") with
  | none => db
  | some completed_state =>
    let tasks_to_archive := db.tasks.filter (eligibleForArchive completed_state.state_id today)
    if tasks_to_archive.isEmpty then db
    else
      match archiveLoop db.stages failsOn tasks_to_archive with
      | none => db
      | some (ats, ass, dels) =>
        { db with
          tasks := db.tasks.filter (fun t => !(dels.contains t.task_id)),
          stages := db.stages.filter (fun s => !(dels.contains s.task_id)),
          archived_tasks := db.archived_tasks ++ ats,
          archived_stages := db.archived_stages ++ ass }

/-! ### Concrete fixtures used by witnesses and counterexamples -/

/-- The four canonical seeded states. -/
def exStates : List State :=
  [{ state_id := 1, state_name := "pending" },
   { state_id := 2, state_name := "in-progress" },
   { state_id := 3, state_name := "completed" },
   { state_id := 4, state_name := "overdue" }]

/-- A task row with the given id, status, due date, completed date and
assignee. -/
def exTask (id st : Nat) (due : Int) (cd : Option Int) (au : Option Nat) : Task :=
  { task_id := id, name := "Task " ++ toString id, description := none,
    status_state_id := st, due_date := due, completed_date := cd,
    priority := "high", assigned_user_id := au, created_by_id := none,
    idempotency_key := none, created_at := none, updated_at := none,
    is_deleted := false }

/-- A stage row with the given id, owning task, status, order, start date,
completed date and actual hours. -/
def exStage (id tid st ord : Nat) (sd cd : Option Int) (ah : Option Rat) : TaskStage :=
  { stage_id := id, task_id := tid, stage_name := "Stage " ++ toString id,
    estimated_time_hours := 5, actual_time_hours := ah,
    status_state_id := st, order_number := ord, start_date := sd,
    completed_date := cd, created_at := none, updated_at := none }

/-- An assignee with a resolvable email. -/
def exUser : User :=
  { user_id := 9, username := "worker1", email := "worker1@example.com",
    full_name := some "Worker One" }

/-- A pending `EmailLog` row with the given id. -/
def exLog (id : Nat) : EmailLog :=
  { id := id, to_email := some "worker1@example.com",
    subject := "Subject " ++ toString id, body := "Body " ++ toString id,
    status := "pending", sent_at := none, error_message := none }

/-- The queue job referencing `exLog id`. -/
def exJob (id : Nat) : EmailJob :=
  { log_id := id, subject := "Subject " ++ toString id,
    body := "Body " ++ toString id, to_email := some "worker1@example.com" }

/-- Archival database with two archive-eligible completed tasks (ids 1 and 2,
completed 40 and 35 days before day 100) and one stage owned by task 1. -/
def exArchFailDB : ArchDB :=
  { states := exStates,
    tasks := [exTask 1 3 50 (some 60) none, exTask 2 3 50 (some 65) none],
    stages := [exStage 11 1 3 1 none (some 55) (some 2)],
    archived_tasks := [], archived_stages := [] }

/-- Archival database with one eligible completed task (id 1, two stages),
one fresh completed task (id 2) and one pending task (id 3). -/
def exArchDB9 : ArchDB :=
  { states := exStates,
    tasks := [exTask 1 3 50 (some 69) (some 9), exTask 2 3 90 (some 95) none,
              exTask 3 1 120 none none],
    stages := [exStage 11 1 3 1 (some 40) (some 55) (some 2),
               exStage 12 1 3 2 (some 41) (some 69) (some 3),
               exStage 13 3 1 1 none none none],
    archived_tasks := [], archived_stages := [] }

/-- Sweep database with one pending task (id 21) past its due date (due day
5, today is day 10) and one started stage owned by it. -/
def exSweepFailDB : SweepDB :=
  { states := exStates,
    tasks := [exTask 21 1 5 none (some 9)],
    stages := [exStage 41 21 2 1 (some 3) none none],
    users := [exUser] }

/-- Sweep database with one task (id 31) already in `overdue` status and past
its due date, assigned to `exUser`. -/
def exSweep10DB : SweepDB :=
  { states := exStates,
    tasks := [exTask 31 4 50 none (some 9)],
    stages := [],
    users := [exUser] }

end TaskManager

namespace TaskManager

/-! ### Helper lemmas -/

theorem le_foldl_max (l : List Int) (a : Int) : a ≤ l.foldl max a := by
  induction l generalizing a with
  | nil => exact le_refl a
  | cons x xs ih => exact le_trans (le_max_left a x) (ih (max a x))

theorem mem_le_foldl_max (l : List Int) (a : Int) : ∀ x ∈ l, x ≤ l.foldl max a := by
  induction l generalizing a with
  | nil => intro x hx; cases hx
  | cons y ys ih =>
    intro x hx
    rcases List.mem_cons.mp hx with h | h
    · subst h
      exact le_trans (le_max_right a x) (le_foldl_max ys (max a x))
    · exact ih (max a y) x h

theorem foldl_max_self_or_mem (l : List Int) (a : Int) :
    l.foldl max a = a ∨ l.foldl max a ∈ l := by
  induction l generalizing a with
  | nil => exact Or.inl rfl
  | cons y ys ih =>
    rcases ih (max a y) with h | h
    · rcases le_total a y with hay | hya
      · right
        rw [List.foldl_cons, h, max_eq_right hay]
        exact List.mem_cons_self y ys
      · left
        rw [List.foldl_cons, h, max_eq_left hya]
    · right
      exact List.mem_cons_of_mem y h

theorem maxDateD_default {d : Int} : maxDateD [] d = d := rfl

theorem le_maxDateD {l : List Int} (d : Int) : ∀ x ∈ l, x ≤ maxDateD l d := by
  intro x hx
  match l, hx with
  | y :: ys, hx =>
    rcases List.mem_cons.mp hx with h | h
    · subst h
      exact le_foldl_max ys x
    · exact mem_le_foldl_max ys y x h

theorem maxDateD_mem {l : List Int} (d : Int) (h : l ≠ []) : maxDateD l d ∈ l := by
  match l with
  | [] => exact absurd rfl h
  | y :: ys =>
    show ys.foldl max y ∈ y :: ys
    rcases foldl_max_self_or_mem ys y with h' | h'
    · rw [h']
      exact List.mem_cons_self y ys
    · exact List.mem_cons_of_mem y h'

/-- A resolved state id comes from a row of the states table with that name. -/
theorem get_all_states_mem {states : List State} {n : String} {i : Nat}
    (h : get_all_states states n = some i) :
    ∃ s ∈ states, s.state_name = n ∧ s.state_id = i := by
  unfold get_all_states at h
  rcases Option.map_eq_some'.mp h with ⟨s, hs, hid⟩
  refine ⟨s, ?_, ?_, hid⟩
  · exact List.mem_reverse.mp (List.mem_of_find?_eq_some hs)
  · have hb := List.find?_some hs
    simpa using hb

/-- Under the primary-key invariant on `states.state_id`, two different
canonical names resolve to different ids. -/
theorem state_ids_distinct {states : List State} {n₁ n₂ : String} {i₁ i₂ : Nat}
    (hnodup : (states.map State.state_id).Nodup)
    (h₁ : get_all_states states n₁ = some i₁)
    (h₂ : get_all_states states n₂ = some i₂)
    (hne : n₁ ≠ n₂) : i₁ ≠ i₂ := by
  rcases get_all_states_mem h₁ with ⟨s₁, hm₁, hn₁, hi₁⟩
  rcases get_all_states_mem h₂ with ⟨s₂, hm₂, hn₂, hi₂⟩
  intro hii
  have : s₁ = s₂ := by
    apply List.inj_on_of_nodup_map hnodup hm₁ hm₂
    rw [hi₁, hi₂, hii]
  exact hne (by rw [← hn₁, this, hn₂])

/-! ### C1 -/

/-- C1: `send_email_async` wraps its whole body in `try/except Exception`
whose handler only prints, so a mail-transport failure never propagates to
`email_worker`; the worker therefore marks the corresponding `EmailLog` row
`sent` with a timestamp and an empty error_message — not `failed` as the
spec requires.  The worker does remain alive: the later queued job is also
processed (and also marked `sent`).  Concrete run: job 1's transport raises,
job 2's delivers; both rows end in `sent`. -/
theorem email_worker_transport_failure_marks_sent :
    email_worker_run { email_host := some "smtp.example.com", email_to := none } 50
      [(exJob 1, .raises "SMTP connect timeout"), (exJob 2, .delivers)]
      [exLog 1, exLog 2]
    = [{ exLog 1 with status := "sent", sent_at := some 50 },
       { exLog 2 with status := "sent", sent_at := some 50 }] := by
  decide

/-! ### C2 -/

/-- C2 counterexample: `archive_old_tasks` has a single `db.commit()` after
the whole loop, so a failure while archiving task 2 rolls back the already
prepared archival of the unrelated task 1: both tasks of `exArchFailDB`
are selected, task 1 is processed first, the injected exception on task 2
leaves the database exactly as before the run — task 1 is still live and no
`ArchivedTask` row exists, contradicting the claim that tasks archived
earlier in the run remain archived. -/
theorem archive_failure_rolls_back_earlier_tasks_counterexample :
    (archiveSelection exArchFailDB 100).map Task.task_id = [1, 2] ∧
    archive_old_tasks exArchFailDB (fun n => n == 2) 100 = exArchFailDB ∧
    (archive_old_tasks exArchFailDB (fun n => n == 2) 100).archived_tasks = [] ∧
    1 ∈ ((archive_old_tasks exArchFailDB (fun n => n == 2) 100).tasks.map Task.task_id) := by
  refine ⟨by decide, by decide, by decide, by decide⟩

/-! ### C4 -/

/-- C4 counterexample: the sweep's task-status updates and stage-status
updates share the single `db.commit()` at scheduler line 106, so an
exception during the stage-overdue phase (before that commit) rolls back
the task-status batch as well.  In `exSweepFailDB`, task 21 is overdue and
would be flipped from `pending` (1) to `overdue` (4) by the task phase, but
after a stage-phase failure the database is unchanged and the task is still
`pending` — the claim's "task-status batch committed in the earlier phase
stays intact" is false. -/
theorem sweep_stage_phase_failure_rolls_back_tasks_counterexample :
    (check_overdue_and_notify exSweepFailDB 10 true).1 = exSweepFailDB ∧
    (check_overdue_and_notify exSweepFailDB 10 true).1.tasks.map Task.status_state_id = [1] ∧
    (exSweepFailDB.tasks.map (sweepTaskUpdate 3 4 10)).map Task.status_state_id = [4] := by
  refine ⟨by decide, by decide, by decide⟩

/-- An exception while processing any selected task aborts the loop before
the commit, discarding the session's pending work. -/
theorem archiveLoop_fails {stages : List TaskStage} {failsOn : Nat → Bool}
    {l : List Task} (h : ∃ t ∈ l, failsOn t.task_id = true) :
    archiveLoop stages failsOn l = none := by
  induction l with
  | nil =>
    rcases h with ⟨t, ht, _⟩
    cases ht
  | cons a rest ih =>
    rcases h with ⟨t, ht, hf⟩
    rcases List.mem_cons.mp ht with rfl | hmem
    · unfold archiveLoop
      rw [if_pos hf]
    · unfold archiveLoop
      by_cases ha : failsOn a.task_id
      · rw [if_pos ha]
      · rw [if_neg ha, ih ⟨t, hmem, hf⟩]

/-- C2 amended: the archival run is atomic per run, not per task — if
archiving any selected task fails, the single commit is never reached and
the whole run rolls back, leaving the database unchanged (so no task of the
run, related or not, ends up archived). -/
theorem archive_run_atomic_rollback_on_failure
    (db : ArchDB) (failsOn : Nat → Bool) (today : Int)
    (h : ∃ t ∈ archiveSelection db today, failsOn t.task_id = true) :
    archive_old_tasks db failsOn today = db := by
  rcases hfind : db.states.find? (fun s => s.state_name == "completed") with _ | cs
  · unfold archive_old_tasks
    rw [hfind]
  · have h' : ∃ t ∈ db.tasks.filter (eligibleForArchive cs.state_id today),
        failsOn t.task_id = true := by
      unfold archiveSelection at h
      rwa [hfind] at h
    unfold archive_old_tasks
    simp only [hfind]
    by_cases hemp : (db.tasks.filter (eligibleForArchive cs.state_id today)).isEmpty
    · rw [if_pos hemp]
    · rw [if_neg hemp, archiveLoop_fails h']

/-- C2 witness: in `exArchFailDB` both tasks are selected and the failure
oracle fires on task 2; the amended theorem applied there gives back the
unchanged database. -/
theorem archive_run_atomic_rollback_witness :
    archive_old_tasks exArchFailDB (fun n => n == 2) 100 = exArchFailDB :=
  archive_run_atomic_rollback_on_failure exArchFailDB (fun n => n == 2) 100
    ⟨exTask 2 3 50 (some 65) none, by decide, by decide⟩

/-- C4 amended: the sweep's fault isolation is per run up to its single
commit: an exception injected in the stage-overdue phase (before the
commit) rolls back both the task and stage batches, returning the database
unchanged with nothing enqueued; on a failure-free run the task and stage
status updates are committed together, as one batch, before any
notification is dispatched. -/
theorem sweep_single_commit_fault_isolation
    (db : SweepDB) (today : Int) (cid oid : Nat)
    (hc : get_all_states db.states "completed" = some cid)
    (ho : get_all_states db.states "overdue" = some oid) :
    (check_overdue_and_notify db today true).1 = db ∧
    (check_overdue_and_notify db today true).2 = [] ∧
    (check_overdue_and_notify db today false).1.tasks
      = db.tasks.map (sweepTaskUpdate cid oid today) ∧
    (check_overdue_and_notify db today false).1.stages
      = db.stages.map
          (sweepStageUpdate cid oid today (db.tasks.map (sweepTaskUpdate cid oid today))) := by
  unfold check_overdue_and_notify
  simp only [hc, ho]
  exact ⟨rfl, rfl, rfl, rfl⟩

/-- C4 witness: applying the amended theorem to `exSweepFailDB` on day 10:
the injected stage-phase failure returns the database unchanged, and the
failure-free run commits the mapped task batch. -/
theorem sweep_single_commit_fault_isolation_witness :
    (check_overdue_and_notify exSweepFailDB 10 true).1 = exSweepFailDB ∧
    (check_overdue_and_notify exSweepFailDB 10 false).1.tasks
      = exSweepFailDB.tasks.map (sweepTaskUpdate 3 4 10) := by
  have h := sweep_single_commit_fault_isolation exSweepFailDB 10 3 4 (by decide) (by decide)
  exact ⟨h.1, h.2.2.1⟩

/-- The task-phase row update is idempotent: a selected task leaves the
phase in `overdue` status, and the guard skips already-overdue rows. -/
theorem sweepTaskUpdate_idem (cid oid : Nat) (today : Int) (t : Task) :
    sweepTaskUpdate cid oid today (sweepTaskUpdate cid oid today t)
      = sweepTaskUpdate cid oid today t := by
  unfold sweepTaskUpdate
  by_cases h1 : t.status_state_id ≠ cid ∧ t.due_date < today
  · rw [if_pos h1]
    by_cases h2 : t.status_state_id ≠ oid
    · rw [if_pos h2]
      by_cases h3 : oid ≠ cid
      · rw [if_pos (show ({ t with status_state_id := oid } : Task).status_state_id ≠ cid
              ∧ ({ t with status_state_id := oid } : Task).due_date < today from ⟨h3, h1.2⟩)]
        rw [if_neg (show ¬ ({ t with status_state_id := oid } : Task).status_state_id ≠ oid
              from fun h => h rfl)]
      · rw [if_neg (show ¬ (({ t with status_state_id := oid } : Task).status_state_id ≠ cid
              ∧ ({ t with status_state_id := oid } : Task).due_date < today)
              from fun h => h3 h.1)]
    · rw [if_neg h2, if_pos h1, if_neg h2]
  · rw [if_neg h1, if_neg h1]

/-- The stage-phase row update is idempotent for a fixed task table. -/
theorem sweepStageUpdate_idem (cid oid : Nat) (today : Int)
    (tasks : List Task) (s : TaskStage) :
    sweepStageUpdate cid oid today tasks (sweepStageUpdate cid oid today tasks s)
      = sweepStageUpdate cid oid today tasks s := by
  unfold sweepStageUpdate
  by_cases h : sweepStageCond cid today tasks s = true
  · rw [if_pos h]
    by_cases h2 : sweepStageCond cid today tasks { s with status_state_id := oid } = true
    · rw [if_pos h2]
    · rw [if_neg h2]
  · rw [if_neg h, if_neg h]

/-- Characterization of a failure-free sweep's committed state. -/
theorem sweep_run_db (db : SweepDB) (today : Int) (cid oid : Nat)
    (hc : get_all_states db.states "completed" = some cid)
    (ho : get_all_states db.states "overdue" = some oid) :
    (check_overdue_and_notify db today false).1
      = { db with
          tasks := db.tasks.map (sweepTaskUpdate cid oid today),
          stages := db.stages.map
            (sweepStageUpdate cid oid today (db.tasks.map (sweepTaskUpdate cid oid today))) } := by
  unfold check_overdue_and_notify
  simp only [hc, ho]
  rfl

/-- A sweep with a missing canonical state is a logged no-op. -/
theorem sweep_no_states_noop (db : SweepDB) (today : Int) (b : Bool)
    (h : get_all_states db.states "completed" = none
       ∨ get_all_states db.states "overdue" = none) :
    check_overdue_and_notify db today b = (db, []) := by
  unfold check_overdue_and_notify
  rcases h with h | h
  · simp only [h]
  · rcases hc : get_all_states db.states "completed" with _ | cid
    · simp only [hc]
    · simp only [hc, h]

/-- C6: running the sweep twice on the same day leaves the database exactly
as after one run — no task or stage status is flipped a second time (the
notification list of the second run may differ, but the committed state does
not). -/
theorem sweep_idempotent_on_statuses (db : SweepDB) (today : Int) :
    (check_overdue_and_notify (check_overdue_and_notify db today false).1 today false).1
      = (check_overdue_and_notify db today false).1 := by
  rcases hc : get_all_states db.states "completed" with _ | cid
  · have h1 : check_overdue_and_notify db today false = (db, []) :=
      sweep_no_states_noop db today false (Or.inl hc)
    rw [h1]
    dsimp only
    rw [h1]
  · rcases ho : get_all_states db.states "overdue" with _ | oid
    · have h1 : check_overdue_and_notify db today false = (db, []) :=
        sweep_no_states_noop db today false (Or.inr ho)
      rw [h1]
      dsimp only
      rw [h1]
    · have h1 := sweep_run_db db today cid oid hc ho
      have hst : (check_overdue_and_notify db today false).1.states = db.states := by
        rw [h1]
      have h2 := sweep_run_db (check_overdue_and_notify db today false).1 today cid oid
        (by rw [hst]; exact hc) (by rw [hst]; exact ho)
      rw [h1] at h2
      dsimp only at h2
      rw [h1, h2]
      have hfun : sweepTaskUpdate cid oid today ∘ sweepTaskUpdate cid oid today
          = sweepTaskUpdate cid oid today := funext (sweepTaskUpdate_idem cid oid today)
      have hT : (db.tasks.map (sweepTaskUpdate cid oid today)).map (sweepTaskUpdate cid oid today)
          = db.tasks.map (sweepTaskUpdate cid oid today) := by
        rw [List.map_map, hfun]
      rw [hT]
      have hgfun : sweepStageUpdate cid oid today (db.tasks.map (sweepTaskUpdate cid oid today))
            ∘ sweepStageUpdate cid oid today (db.tasks.map (sweepTaskUpdate cid oid today))
          = sweepStageUpdate cid oid today (db.tasks.map (sweepTaskUpdate cid oid today)) :=
        funext (sweepStageUpdate_idem cid oid today (db.tasks.map (sweepTaskUpdate cid oid today)))
      rw [List.map_map, hgfun]

/-- Characterization of a failure-free sweep's enqueued notifications:
overdue-task emails for the full selection, then stage-overdue emails, then
reminders. -/
theorem sweep_run_emails (db : SweepDB) (today : Int) (cid oid : Nat)
    (hc : get_all_states db.states "completed" = some cid)
    (ho : get_all_states db.states "overdue" = some oid) :
    (check_overdue_and_notify db today false).2
      = (db.tasks.filter (fun t => t.status_state_id ≠ cid ∧ t.due_date < today)).filterMap
          (overdueTaskEmail db.users)
        ++ (db.stages.filter
              (sweepStageCond cid today (db.tasks.map (sweepTaskUpdate cid oid today)))).filterMap
            (overdueStageEmail db.users (db.tasks.map (sweepTaskUpdate cid oid today)))
        ++ ((db.tasks.map (sweepTaskUpdate cid oid today)).filter
              (fun t => t.status_state_id ≠ cid ∧ today + 1 ≤ t.due_date ∧ t.due_date ≤ today + 2)).filterMap
            (reminderEmail db.users) := by
  unfold check_overdue_and_notify
  simp only [hc, ho]
  rfl

/-- C10: every task selected by the sweep's overdue phase (non-completed and
past due) with a resolvable assignee gets a "Task Overdue: ..." notification
enqueued — including a task already in `overdue` status, whose row the run
leaves unchanged (second conjunct); repeated runs therefore re-enqueue
overdue notifications, not only reminders. -/
theorem sweep_overdue_notification_for_already_overdue
    (db : SweepDB) (today : Int) (t : Task) (u : User) (cid oid : Nat)
    (hc : get_all_states db.states "completed" = some cid)
    (ho : get_all_states db.states "overdue" = some oid)
    (hmem : t ∈ db.tasks)
    (hnc : t.status_state_id ≠ cid)
    (hdue : t.due_date < today)
    (hu : findUser db.users t.assigned_user_id = some u) :
    (∃ m ∈ (check_overdue_and_notify db today false).2,
        m.subject = "Task Overdue: " ++ t.name ∧ m.to_email = some u.email) ∧
    (t.status_state_id = oid → sweepTaskUpdate cid oid today t = t) := by
  constructor
  · obtain ⟨msg, hmsg, hsub, hto⟩ : ∃ msg, overdueTaskEmail db.users t = some msg
        ∧ msg.subject = "Task Overdue: " ++ t.name ∧ msg.to_email = some u.email := by
      unfold overdueTaskEmail
      rw [hu]
      exact ⟨_, rfl, rfl, rfl⟩
    refine ⟨msg, ?_, hsub, hto⟩
    rw [sweep_run_emails db today cid oid hc ho]
    apply List.mem_append_left
    apply List.mem_append_left
    exact List.mem_filterMap.mpr
      ⟨t, List.mem_filter.mpr ⟨hmem, decide_eq_true ⟨hnc, hdue⟩⟩, hmsg⟩
  · intro hoid
    unfold sweepTaskUpdate
    rw [if_pos ⟨hnc, hdue⟩, if_neg (fun h => h hoid)]

/-- C10 witness: task 31 of `exSweep10DB` is already `overdue` (id 4) and
past due on day 100; the run still enqueues its "Task Overdue" notification
and leaves its row unchanged. -/
theorem sweep_overdue_notification_witness :
    (∃ m ∈ (check_overdue_and_notify exSweep10DB 100 false).2,
        m.subject = "Task Overdue: " ++ (exTask 31 4 50 none (some 9)).name
          ∧ m.to_email = some exUser.email) ∧
    sweepTaskUpdate 3 4 100 (exTask 31 4 50 none (some 9)) = exTask 31 4 50 none (some 9) := by
  have h := sweep_overdue_notification_for_already_overdue exSweep10DB 100
    (exTask 31 4 50 none (some 9)) exUser 3 4 (by decide) (by decide) (by decide)
    (by decide) (by decide) (by decide)
  exact ⟨h.1, h.2 (by decide)⟩

/-! ### C3 -/

/-- C3: for a task with at least one stage all of whose stages are
`completed`, `update_task_status_from_stages` sets the task's status to the
`completed` state id and its completed_date to the maximum populated
completed_date among the stages, with today as the fallback when no stage
has one (the last three conjuncts pin down that `maxDateD` is that
maximum-with-fallback). -/
theorem recompute_all_completed_sets_completed
    (states : List State) (today : Int) (task : Task) (stages : List TaskStage)
    (cid : Nat) (hc : get_all_states states "completed" = some cid)
    (hne : stages ≠ [])
    (hall : ∀ s ∈ stages, s.status_state_id = cid) :
    update_task_status_from_stages states today task stages
      = some { task with
               status_state_id := cid,
               completed_date := some (maxDateD (stageCompletedDates stages) today) }
    ∧ (stageCompletedDates stages = [] → maxDateD (stageCompletedDates stages) today = today)
    ∧ (∀ d ∈ stageCompletedDates stages, d ≤ maxDateD (stageCompletedDates stages) today)
    ∧ (stageCompletedDates stages ≠ [] →
        maxDateD (stageCompletedDates stages) today ∈ stageCompletedDates stages) := by
  refine ⟨?_, ?_, le_maxDateD today, maxDateD_mem today⟩
  · have hall' : stages.all (fun s => some s.status_state_id == get_all_states states "completed") = true := by
      rw [List.all_eq_true]
      intro s hs
      rw [hc, hall s hs]
      exact beq_self_eq_true _
    unfold update_task_status_from_stages
    rw [if_pos ⟨hall', hne⟩, hc]
  · intro h
    rw [h, maxDateD_default]

/-- C3 witness: two completed stages with completed_dates 50 and 60 under a
task due on day 200; the recompute sets status `completed` (id 3) and
completed_date 60. -/
theorem recompute_all_completed_witness :
    update_task_status_from_stages exStates 100 (exTask 1 2 200 none none)
        [exStage 11 1 3 1 (some 40) (some 50) (some 2),
         exStage 12 1 3 2 (some 41) (some 60) (some 3)]
      = some { exTask 1 2 200 none none with status_state_id := 3, completed_date := some 60 } := by
  have h := recompute_all_completed_sets_completed exStates 100 (exTask 1 2 200 none none)
    [exStage 11 1 3 1 (some 40) (some 50) (some 2),
     exStage 12 1 3 2 (some 41) (some 60) (some 3)]
    3 (by decide) (by decide) (by decide)
  simpa using h.1

/-! ### C5 -/

/-- Every branch of the recompute writes a resolved id when the three
canonical states are seeded, so the propagation never crashes. -/
theorem update_task_status_total (states : List State) (today : Int)
    (task : Task) (stages : List TaskStage) (cid oid pid : Nat)
    (hc : get_all_states states "completed" = some cid)
    (ho : get_all_states states "overdue" = some oid)
    (hp : get_all_states states "in-progress" = some pid) :
    ∃ t', update_task_status_from_stages states today task stages = some t' := by
  unfold update_task_status_from_stages
  simp only [hc, ho, hp]
  split_ifs <;> exact ⟨_, rfl⟩

/-- Database-level version of `update_task_status_total`. -/
theorem update_task_status_db_total (states : List State) (today : Int)
    (tasks : List Task) (stages : List TaskStage) (tid : Nat) (cid oid pid : Nat)
    (hc : get_all_states states "completed" = some cid)
    (ho : get_all_states states "overdue" = some oid)
    (hp : get_all_states states "in-progress" = some pid) :
    ∃ ts', update_task_status_from_stages_db states today tasks stages tid = some ts' := by
  unfold update_task_status_from_stages_db
  cases hfind : tasks.find? (fun t => t.task_id == tid) with
  | none =>
    simp only [hfind]
    exact ⟨tasks, rfl⟩
  | some task =>
    obtain ⟨t', ht'⟩ := update_task_status_total states today task
      (stages.filter (fun s => s.task_id == tid)) cid oid pid hc ho hp
    simp only [hfind, ht']
    exact ⟨_, rfl⟩

/-- The start-date derivation touches only `start_date`. -/
theorem stage_after_start_fields (new_status : State) (today : Int) (st : TaskStage) :
    (stage_after_start new_status today st).actual_time_hours = st.actual_time_hours
    ∧ (stage_after_start new_status today st).status_state_id = st.status_state_id
    ∧ (stage_after_start new_status today st).task_id = st.task_id := by
  unfold stage_after_start
  split_ifs <;> exact ⟨rfl, rfl, rfl⟩

/-- On a transition to `completed`, the write sequence leaves
`completed_date = supplied value or today` (the overwrite at line 125
rewrites the same supplied value) and does not touch status or owner. -/
theorem stage_after_writes_completed (new_status : State) (today : Int)
    (upd : TaskStageUpdate) (st : TaskStage) (h : new_status.state_name = "completed") :
    (stage_after_writes new_status today upd st).completed_date
        = some (upd.completed_date.getD today)
    ∧ (stage_after_writes new_status today upd st).status_state_id = st.status_state_id
    ∧ (stage_after_writes new_status today upd st).task_id = st.task_id := by
  unfold stage_after_writes
  rw [if_pos h]
  rcases hA : upd.actual_time_hours with _ | a <;>
    rcases hS : upd.start_date with _ | sd <;>
      rcases hC : upd.completed_date with _ | cd <;>
        simp [hA, hS, hC]

/-- C5: transitioning a stage to the `completed` state fails with the
"actual time required" validation error exactly when the caller supplies no
actual hours and none are stored; when actual hours are available the
transition succeeds, and the updated stage carries
`completed_date = supplied value or today` and the requested status. -/
theorem update_stage_completed_actual_hours
    (states : List State) (tasks : List Task) (stages : List TaskStage)
    (today : Int) (sid : Nat) (upd : TaskStageUpdate) (st0 : TaskStage) (ns : State)
    (cid oid pid : Nat)
    (hfind : stages.find? (fun s => s.stage_id == sid) = some st0)
    (hstate : states.find? (fun s => s.state_id == upd.status_state_id) = some ns)
    (hname : ns.state_name = "completed")
    (hc : get_all_states states "completed" = some cid)
    (ho : get_all_states states "overdue" = some oid)
    (hp : get_all_states states "in-progress" = some pid) :
    ((upd.actual_time_hours = none ∧ st0.actual_time_hours = none) →
      update_stage states tasks stages today sid upd = .error .actualHoursRequired)
    ∧ ((upd.actual_time_hours ≠ none ∨ st0.actual_time_hours ≠ none) →
      ∃ r, update_stage states tasks stages today sid upd = .ok r
        ∧ r.2.2.completed_date = some (upd.completed_date.getD today)
        ∧ r.2.2.status_state_id = upd.status_state_id) := by
  constructor
  · rintro ⟨hu, hs⟩
    unfold update_stage
    simp only [hfind, hstate]
    rw [if_pos ⟨hname, hu, by
      rw [(stage_after_start_fields ns today _).1]
      exact hs⟩]
  · intro havail
    unfold update_stage
    simp only [hfind, hstate]
    rw [if_neg (fun hreq => by
      rcases hreq with ⟨-, hu, hs2⟩
      rw [(stage_after_start_fields ns today _).1] at hs2
      rcases havail with h | h
      · exact h hu
      · exact h hs2)]
    obtain ⟨ts', hdb⟩ := update_task_status_db_total states today tasks
      (stages.map (fun s => if s.stage_id == sid then
        stage_after_writes ns today upd
          (stage_after_start ns today { st0 with status_state_id := upd.status_state_id })
       else s))
      ((stage_after_writes ns today upd
          (stage_after_start ns today { st0 with status_state_id := upd.status_state_id })).task_id)
      cid oid pid hc ho hp
    rw [hdb]
    refine ⟨_, rfl, ?_, ?_⟩
    · exact (stage_after_writes_completed ns today upd _ hname).1
    · rw [(stage_after_writes_completed ns today upd _ hname).2.1,
          (stage_after_start_fields ns today _).2.1]

/-- C5 witness: stage 7 of task 1 has no stored actual hours.  With no
supplied actual hours the transition to `completed` (state id 3) fails with
the validation error; with actual_hours = 6 it succeeds and sets
completed_date to today (day 100). -/
theorem update_stage_completed_actual_hours_witness :
    update_stage exStates [exTask 1 1 200 none none] [exStage 7 1 1 1 none none none]
        100 7 { status_state_id := 3, actual_time_hours := none,
                start_date := none, completed_date := none }
      = .error .actualHoursRequired ∧
    ∃ r, update_stage exStates [exTask 1 1 200 none none] [exStage 7 1 1 1 none none none]
        100 7 { status_state_id := 3, actual_time_hours := some 6,
                start_date := none, completed_date := none }
      = .ok r ∧ r.2.2.completed_date = some 100 := by
  have h1 := update_stage_completed_actual_hours exStates [exTask 1 1 200 none none]
    [exStage 7 1 1 1 none none none] 100 7
    { status_state_id := 3, actual_time_hours := none, start_date := none, completed_date := none }
    (exStage 7 1 1 1 none none none) { state_id := 3, state_name := "completed" } 3 4 2
    (by decide) (by decide) (by decide) (by decide) (by decide) (by decide)
  have h2 := update_stage_completed_actual_hours exStates [exTask 1 1 200 none none]
    [exStage 7 1 1 1 none none none] 100 7
    { status_state_id := 3, actual_time_hours := some 6, start_date := none, completed_date := none }
    (exStage 7 1 1 1 none none none) { state_id := 3, state_name := "completed" } 3 4 2
    (by decide) (by decide) (by decide) (by decide) (by decide) (by decide)
  refine ⟨h1.1 ⟨rfl, rfl⟩, ?_⟩
  obtain ⟨r, hr, hcd, -⟩ := h2.2 (Or.inl (by decide))
  exact ⟨r, hr, hcd⟩

/-! ### C7 -/

/-- C7: for a task with zero stages the recompute never sets the status to
`completed`: whenever the result is in the `completed` state, the task was
already in it before the call.  The primary-key invariant on state ids makes
the `completed` and `overdue` ids distinct. -/
theorem recompute_zero_stages_never_completed
    (states : List State) (today : Int) (task : Task) (cid oid : Nat) (t' : Task)
    (hnodup : (states.map State.state_id).Nodup)
    (hc : get_all_states states "completed" = some cid)
    (ho : get_all_states states "overdue" = some oid)
    (hres : update_task_status_from_stages states today task [] = some t')
    (hcomp : t'.status_state_id = cid) :
    task.status_state_id = cid := by
  have hne : cid ≠ oid := state_ids_distinct hnodup hc ho (by decide)
  unfold update_task_status_from_stages at hres
  rw [if_neg (by simp)] at hres
  by_cases hcond : task.due_date < today ∧ some task.status_state_id ≠ get_all_states states "completed"
  · rw [if_pos hcond, ho] at hres
    have ht' : t' = { task with status_state_id := oid } :=
      (Option.some_injective _ hres).symm
    rw [ht'] at hcomp
    exact absurd hcomp.symm hne
  · rw [if_neg hcond] at hres
    rw [if_neg (by simp)] at hres
    have ht' : t' = task := (Option.some_injective _ hres).symm
    rw [← ht']
    exact hcomp

/-- C7 witness: a zero-stage task already `completed` (id 3) and not yet due
passes through the recompute unchanged, discharging every hypothesis at a
concrete input. -/
theorem recompute_zero_stages_witness :
    (exTask 5 3 200 (some 90) none).status_state_id = 3 :=
  recompute_zero_stages_never_completed exStates 100 (exTask 5 3 200 (some 90) none)
    3 4 (exTask 5 3 200 (some 90) none) (by decide) (by decide) (by decide) (by decide) (by decide)

/-! ### C9 -/

/-- With no failure injected, the archival loop stages one archived task per
selected task, one archived stage per owned stage, and the deletion of each
selected task, in loop order. -/
theorem archiveLoop_no_failure (stages : List TaskStage) (l : List Task) :
    archiveLoop stages (fun _ => false) l
      = some (l.map toArchivedTask,
              l.flatMap (fun t =>
                (stages.filter (fun s => s.task_id == t.task_id)).map toArchivedStage),
              l.map Task.task_id) := by
  induction l with
  | nil => rfl
  | cons t rest ih =>
    unfold archiveLoop
    rw [if_neg (by simp), ih]
    rfl

theorem filter_map_toArchivedTask (l : List Task) (tid : Nat) :
    (l.map toArchivedTask).filter (fun a => a.task_id == tid)
      = (l.filter (fun u => u.task_id == tid)).map toArchivedTask := by
  induction l with
  | nil => rfl
  | cons u rest ih =>
    rw [List.map_cons, List.filter_cons, List.filter_cons]
    have hproj : (toArchivedTask u).task_id = u.task_id := rfl
    rw [hproj]
    by_cases h : (u.task_id == tid) = true
    · rw [if_pos h, if_pos h, List.map_cons, ih]
    · rw [if_neg h, if_neg h, ih]

/-- Under the task-id primary-key invariant, the only row of the filtered
selection carrying `t`'s id is `t` itself. -/
theorem filter_eligible_id_singleton {l : List Task} {t : Task} {p : Task → Bool}
    (hnodup : (l.map Task.task_id).Nodup) (hmem : t ∈ l) (hp : p t = true) :
    (l.filter p).filter (fun u => u.task_id == t.task_id) = [t] := by
  induction l with
  | nil => cases hmem
  | cons a rest ih =>
    rw [List.map_cons, List.nodup_cons] at hnodup
    rcases List.mem_cons.mp hmem with rfl | hmem'
    · rw [List.filter_cons_of_pos hp, List.filter_cons_of_pos (by simp)]
      have hrest : (rest.filter p).filter (fun u => u.task_id == t.task_id) = [] := by
        rw [List.filter_eq_nil_iff]
        intro u hu hbeq
        have humem := List.mem_of_mem_filter hu
        rw [beq_iff_eq] at hbeq
        exact hnodup.1 (hbeq ▸ List.mem_map_of_mem Task.task_id humem)
      rw [hrest]
    · have hne : a.task_id ≠ t.task_id := by
        intro he
        exact hnodup.1 (he ▸ List.mem_map_of_mem Task.task_id hmem')
      by_cases hpa : p a = true
      · rw [List.filter_cons_of_pos hpa,
            List.filter_cons_of_neg (by simpa using hne)]
        exact ih hnodup.2 hmem'
      · rw [List.filter_cons_of_neg (by simpa using hpa)]
        exact ih hnodup.2 hmem'

/-- Under the task-id primary-key invariant on the selection, filtering the
per-task archive-stage contributions by `t`'s id keeps exactly `t`'s own
contribution. -/
theorem filter_bind_single {sel : List Task} {t : Task}
    (hnodup : (sel.map Task.task_id).Nodup) (hmem : t ∈ sel)
    (g : Task → List ArchivedTaskStage)
    (hg : ∀ u, ∀ a ∈ g u, a.task_id = u.task_id) :
    (sel.flatMap g).filter (fun a => a.task_id == t.task_id) = g t := by
  induction sel with
  | nil => cases hmem
  | cons b rest ih =>
    rw [List.map_cons, List.nodup_cons] at hnodup
    rw [List.flatMap_cons, List.filter_append]
    rcases List.mem_cons.mp hmem with rfl | hmem'
    · have h1 : (g t).filter (fun a => a.task_id == t.task_id) = g t := by
        rw [List.filter_eq_self]
        intro a ha
        rw [beq_iff_eq]
        exact hg t a ha
      have h2 : (rest.flatMap g).filter (fun a => a.task_id == t.task_id) = [] := by
        rw [List.filter_eq_nil_iff]
        intro a ha hbeq
        obtain ⟨u, hu, hau⟩ := List.mem_flatMap.mp ha
        rw [beq_iff_eq] at hbeq
        have hau2 := hg u a hau
        apply hnodup.1
        rw [← hbeq, hau2]
        exact List.mem_map_of_mem Task.task_id hu
      rw [h1, h2, List.append_nil]
    · have h1 : (g b).filter (fun a => a.task_id == t.task_id) = [] := by
        rw [List.filter_eq_nil_iff]
        intro a ha hbeq
        rw [beq_iff_eq] at hbeq
        have hab := hg b a ha
        apply hnodup.1
        rw [← hab, hbeq]
        exact List.mem_map_of_mem Task.task_id hmem'
      rw [h1, List.nil_append]
      exact ih hnodup.2 hmem'

/-- Characterization of a failure-free archival run with a nonempty
selection. -/
theorem archive_run_success (db : ArchDB) (today : Int) (cs : State)
    (hstate : db.states.find? (fun s => s.state_name == "completed") = some cs)
    (hne : db.tasks.filter (eligibleForArchive cs.state_id today) ≠ []) :
    archive_old_tasks db (fun _ => false) today
      = { db with
          tasks := db.tasks.filter (fun u =>
            !(((db.tasks.filter (eligibleForArchive cs.state_id today)).map
                Task.task_id).contains u.task_id)),
          stages := db.stages.filter (fun s =>
            !(((db.tasks.filter (eligibleForArchive cs.state_id today)).map
                Task.task_id).contains s.task_id)),
          archived_tasks := db.archived_tasks
            ++ (db.tasks.filter (eligibleForArchive cs.state_id today)).map toArchivedTask,
          archived_stages := db.archived_stages
            ++ (db.tasks.filter (eligibleForArchive cs.state_id today)).flatMap
                (fun t => (db.stages.filter
                    (fun s => s.task_id == t.task_id)).map toArchivedStage) } := by
  unfold archive_old_tasks
  simp only [hstate]
  rw [if_neg (by simpa using hne), archiveLoop_no_failure]

/-- C9: archiving a task in `completed` status whose completed_date is at
least 30 days old (one failure-free run) removes it and its stages from the
live tables and appends exactly one `ArchivedTask` plus one `ArchivedStage`
per owned stage, the archived rows carrying the original rows' fields
(`toArchivedTask`/`toArchivedStage` are field-for-field copies; the trailing
conjuncts spell the task's field equalities out). -/
theorem archive_completed_task_round_trip
    (db : ArchDB) (today : Int) (t : Task) (cs : State) (d : Int)
    (hstate : db.states.find? (fun s => s.state_name == "completed") = some cs)
    (hmem : t ∈ db.tasks)
    (hnodup : (db.tasks.map Task.task_id).Nodup)
    (hstatus : t.status_state_id = cs.state_id)
    (hcd : t.completed_date = some d)
    (hold : d ≤ today - 30) :
    (∀ u ∈ (archive_old_tasks db (fun _ => false) today).tasks, u.task_id ≠ t.task_id) ∧
    (archive_old_tasks db (fun _ => false) today).archived_tasks.filter
        (fun a => a.task_id == t.task_id)
      = db.archived_tasks.filter (fun a => a.task_id == t.task_id)
        ++ [toArchivedTask t] ∧
    (archive_old_tasks db (fun _ => false) today).archived_stages.filter
        (fun a => a.task_id == t.task_id)
      = db.archived_stages.filter (fun a => a.task_id == t.task_id)
        ++ (db.stages.filter (fun s => s.task_id == t.task_id)).map toArchivedStage ∧
    (∀ s ∈ (archive_old_tasks db (fun _ => false) today).stages, s.task_id ≠ t.task_id) ∧
    (toArchivedTask t).name = t.name ∧
    (toArchivedTask t).description = t.description ∧
    (toArchivedTask t).status_state_id = t.status_state_id ∧
    (toArchivedTask t).due_date = t.due_date ∧
    (toArchivedTask t).completed_date = t.completed_date ∧
    (toArchivedTask t).priority = t.priority ∧
    (toArchivedTask t).assigned_user_id = t.assigned_user_id := by
  have helig : eligibleForArchive cs.state_id today t = true := by
    unfold eligibleForArchive
    rw [hstatus, hcd]
    simp [hold]
  have hsel : t ∈ db.tasks.filter (eligibleForArchive cs.state_id today) :=
    List.mem_filter.mpr ⟨hmem, helig⟩
  have hselne : db.tasks.filter (eligibleForArchive cs.state_id today) ≠ [] :=
    List.ne_nil_of_mem hsel
  have hselnodup : ((db.tasks.filter (eligibleForArchive cs.state_id today)).map
      Task.task_id).Nodup :=
    ((List.filter_sublist db.tasks).map Task.task_id).nodup hnodup
  have hidmem : t.task_id ∈ (db.tasks.filter (eligibleForArchive cs.state_id today)).map
      Task.task_id := List.mem_map_of_mem Task.task_id hsel
  rw [archive_run_success db today cs hstate hselne]
  refine ⟨?_, ?_, ?_, ?_, rfl, rfl, rfl, rfl, rfl, rfl, rfl⟩
  · intro u hu hue
    have hcontains := List.of_mem_filter hu
    rw [Bool.not_eq_true', hue] at hcontains
    have htrue : ((db.tasks.filter (eligibleForArchive cs.state_id today)).map
        Task.task_id).contains t.task_id = true := by
      simpa using hidmem
    rw [hcontains] at htrue
    simp at htrue
  · rw [List.filter_append, filter_map_toArchivedTask,
        filter_eligible_id_singleton hnodup hmem helig]
    rfl
  · rw [List.filter_append, filter_bind_single hselnodup hsel]
    intro u a ha
    obtain ⟨s, hs, rfl⟩ := List.mem_map.mp ha
    have := List.of_mem_filter hs
    rw [beq_iff_eq] at this
    exact this
  · intro s hs hse
    have hcontains := List.of_mem_filter hs
    rw [Bool.not_eq_true', hse] at hcontains
    have htrue : ((db.tasks.filter (eligibleForArchive cs.state_id today)).map
        Task.task_id).contains t.task_id = true := by
      simpa using hidmem
    rw [hcontains] at htrue
    simp at htrue

/-- C9 witness: in `exArchDB9` on day 100, task 1 (completed on day 69, 31
days earlier, with stages 11 and 12) is archived by a failure-free run:
exactly one `ArchivedTask` row and one `ArchivedStage` row per stage appear,
and no live task or stage with id 1 remains. -/
theorem archive_completed_task_round_trip_witness :
    (archive_old_tasks exArchDB9 (fun _ => false) 100).archived_tasks.filter
        (fun a => a.task_id == (exTask 1 3 50 (some 69) (some 9)).task_id)
      = [toArchivedTask (exTask 1 3 50 (some 69) (some 9))] ∧
    (archive_old_tasks exArchDB9 (fun _ => false) 100).archived_stages.filter
        (fun a => a.task_id == (exTask 1 3 50 (some 69) (some 9)).task_id)
      = (exArchDB9.stages.filter
          (fun s => s.task_id == (exTask 1 3 50 (some 69) (some 9)).task_id)).map
            toArchivedStage := by
  have h := archive_completed_task_round_trip exArchDB9 100
    (exTask 1 3 50 (some 69) (some 9)) { state_id := 3, state_name := "completed" } 69
    (by decide) (by decide) (by decide) (by decide) (by decide) (by decide)
  constructor
  · have h2 := h.2.1
    simpa using h2
  · have h3 := h.2.2.1
    simpa using h3

/-! ### C8 -/

theorem renumberFrom_orders (n : Nat) (l : List TaskStage) :
    (renumberFrom n l).map TaskStage.order_number = List.range' n l.length := by
  induction l generalizing n with
  | nil => rfl
  | cons s rest ih =>
    show n :: (renumberFrom (n + 1) rest).map TaskStage.order_number
      = List.range' n (rest.length + 1)
    rw [ih]
    rfl

theorem renumberFrom_stage_ids (n : Nat) (l : List TaskStage) :
    (renumberFrom n l).map TaskStage.stage_id = l.map TaskStage.stage_id := by
  induction l generalizing n with
  | nil => rfl
  | cons s rest ih =>
    show s.stage_id :: (renumberFrom (n + 1) rest).map TaskStage.stage_id
      = s.stage_id :: rest.map TaskStage.stage_id
    rw [ih]

theorem mem_renumberFrom {n : Nat} {l : List TaskStage} {s' : TaskStage}
    (h : s' ∈ renumberFrom n l) :
    ∃ s ∈ l, s'.task_id = s.task_id ∧ s'.stage_id = s.stage_id := by
  induction l generalizing n with
  | nil => cases h
  | cons s rest ih =>
    rcases List.mem_cons.mp h with rfl | h
    · exact ⟨s, List.mem_cons_self s rest, rfl, rfl⟩
    · obtain ⟨t, ht, h1, h2⟩ := ih h
      exact ⟨t, List.mem_cons_of_mem s ht, h1, h2⟩

/-- C8: deleting a stage removes exactly that row, and the remaining stages
of the owning task come out renumbered `1..N` (conjunct 3) in the order of
their prior `order_number`s (conjuncts 2, 4 and 5); stages of other tasks
are untouched by the renumbering (conjunct 2 describes the full filtered
set). -/
theorem delete_stage_renumbers_contiguously
    (stages : List TaskStage) (sid : Nat) (st : TaskStage)
    (hfind : stages.find? (fun s => s.stage_id == sid) = some st) :
    ∃ out, delete_stage stages sid = .ok out ∧
      out.filter (fun s => s.task_id == st.task_id)
        = renumberFrom 1 (((stages.filter (fun s => s.stage_id != sid)).filter
            (fun s => s.task_id == st.task_id)).insertionSort byOrderNumber) ∧
      (out.filter (fun s => s.task_id == st.task_id)).map TaskStage.order_number
        = List.range' 1 ((stages.filter (fun s => s.stage_id != sid)).filter
            (fun s => s.task_id == st.task_id)).length ∧
      (out.filter (fun s => s.task_id == st.task_id)).map TaskStage.stage_id
        = (((stages.filter (fun s => s.stage_id != sid)).filter
            (fun s => s.task_id == st.task_id)).insertionSort byOrderNumber).map
              TaskStage.stage_id ∧
      List.Sorted (· ≤ ·)
        ((((stages.filter (fun s => s.stage_id != sid)).filter
            (fun s => s.task_id == st.task_id)).insertionSort byOrderNumber).map
              TaskStage.order_number) ∧
      ∀ s ∈ out, s.stage_id ≠ sid := by
  have hfilter :
      ((stages.filter (fun s => s.stage_id != sid)).filter
          (fun s => s.task_id != st.task_id)
        ++ renumberFrom 1 (((stages.filter (fun s => s.stage_id != sid)).filter
            (fun s => s.task_id == st.task_id)).insertionSort byOrderNumber)).filter
          (fun s => s.task_id == st.task_id)
      = renumberFrom 1 (((stages.filter (fun s => s.stage_id != sid)).filter
          (fun s => s.task_id == st.task_id)).insertionSort byOrderNumber) := by
    rw [List.filter_append]
    have h1 : ((stages.filter (fun s => s.stage_id != sid)).filter
        (fun s => s.task_id != st.task_id)).filter
          (fun s => s.task_id == st.task_id) = [] := by
      rw [List.filter_eq_nil_iff]
      intro a ha
      have hne := List.of_mem_filter ha
      simp only [bne_iff_ne, ne_eq] at hne
      simp only [beq_iff_eq]
      exact hne
    have h2 : (renumberFrom 1 (((stages.filter (fun s => s.stage_id != sid)).filter
        (fun s => s.task_id == st.task_id)).insertionSort byOrderNumber)).filter
          (fun s => s.task_id == st.task_id)
        = renumberFrom 1 (((stages.filter (fun s => s.stage_id != sid)).filter
            (fun s => s.task_id == st.task_id)).insertionSort byOrderNumber) := by
      rw [List.filter_eq_self]
      intro s' hs'
      obtain ⟨t, ht, h1, -⟩ := mem_renumberFrom hs'
      rw [List.mem_insertionSort] at ht
      have := List.of_mem_filter ht
      rw [beq_iff_eq] at this ⊢
      rw [h1, this]
    rw [h1, h2, List.nil_append]
  refine ⟨(stages.filter (fun s => s.stage_id != sid)).filter (fun s => s.task_id != st.task_id)
      ++ renumberFrom 1 (((stages.filter (fun s => s.stage_id != sid)).filter
          (fun s => s.task_id == st.task_id)).insertionSort byOrderNumber),
    ?_, ?_, ?_, ?_, ?_, ?_⟩
  · unfold delete_stage
    simp only [hfind]
  · exact hfilter
  · rw [hfilter, renumberFrom_orders, List.length_insertionSort]
  · rw [hfilter, renumberFrom_stage_ids]
  · exact List.Pairwise.map TaskStage.order_number (fun a b h => h)
      (List.sorted_insertionSort byOrderNumber _)
  · intro s hs
    rcases List.mem_append.mp hs with h | h
    · have hmem := List.mem_of_mem_filter h
      have := List.of_mem_filter hmem
      rwa [bne_iff_ne, ne_eq] at this
    · obtain ⟨t, ht, -, h2⟩ := mem_renumberFrom h
      rw [List.mem_insertionSort] at ht
      have hmem := List.mem_of_mem_filter ht
      have := List.of_mem_filter hmem
      rw [bne_iff_ne, ne_eq] at this
      rw [h2]
      exact this

/-- C8 witness: deleting the 2nd of three ordered stages (stage ids 1,2,3
with order_numbers 1,2,3 on task 1) leaves the remaining two stages with
order_numbers 1,2 in their prior order. -/
theorem delete_stage_renumbers_witness :
    ∃ out, delete_stage
        [exStage 1 1 1 1 none none none, exStage 2 1 1 2 none none none,
         exStage 3 1 1 3 none none none] 2 = .ok out ∧
      (out.filter (fun s => s.task_id == 1)).map TaskStage.order_number = [1, 2] ∧
      (out.filter (fun s => s.task_id == 1)).map TaskStage.stage_id = [1, 3] := by
  obtain ⟨out, h1, -, h3, h4, -, -⟩ := delete_stage_renumbers_contiguously
    [exStage 1 1 1 1 none none none, exStage 2 1 1 2 none none none,
     exStage 3 1 1 3 none none none] 2 (exStage 2 1 1 2 none none none) (by decide)
  refine ⟨out, h1, ?_, ?_⟩
  · rw [show ((exStage 2 1 1 2 none none none).task_id) = 1 from rfl] at h3
    rw [h3]
    decide
  · rw [show ((exStage 2 1 1 2 none none none).task_id) = 1 from rfl] at h4
    rw [h4]
    decide

end TaskManager
